import Mathlib

/-!
Verification of the nodeunit HTTP client (`src/httpclient.js`) against its
specification. The JavaScript source is shallowly embedded: the per-verb
request function is split into its pure phases (argument normalization,
path and query construction, body serialization, response processing,
assertion phase, terminal-action routing), each translated directly from
the corresponding lines of `src/httpclient.js`. Event handlers are modelled
as pure functions from their inputs to the list of terminal actions they
perform (callback invocation, `assert.done`, or a thrown error).
-/

namespace NodeunitHttpClient

/-- JavaScript runtime values, as far as the client manipulates them:
`undefined`, `null`, booleans, numbers (the client only ever compares and
serializes integral values, so numbers are modelled as integers), strings,
arrays, plain objects (own enumerable string keys in insertion order),
Node `Buffer`s, and functions (identified opaquely by an id). -/
inductive JSValue : Type where
  | undef : JSValue
  | null : JSValue
  | bool (b : Bool) : JSValue
  | num (n : Int) : JSValue
  | str (s : String) : JSValue
  | arr (elems : List JSValue) : JSValue
  | obj (fields : List (String × JSValue)) : JSValue
  | buf (bytes : List Nat) : JSValue
  | fn (id : Nat) : JSValue

mutual

/-- Structural equality of JavaScript values (the model of
`assert.deepEqual`'s structural comparison; the spec describes
`expectedData` as checked by structural equality). -/
def JSValue.beq : JSValue → JSValue → Bool
  | .undef, .undef => true
  | .null, .null => true
  | .bool a, .bool b => a == b
  | .num a, .num b => a == b
  | .str a, .str b => a == b
  | .arr a, .arr b => JSValue.beqList a b
  | .obj a, .obj b => JSValue.beqFields a b
  | .buf a, .buf b => a == b
  | .fn a, .fn b => a == b
  | _, _ => false

/-- Pointwise structural equality of element lists. -/
def JSValue.beqList : List JSValue → List JSValue → Bool
  | [], [] => true
  | x :: xs, y :: ys => JSValue.beq x y && JSValue.beqList xs ys
  | _, _ => false

/-- Pointwise structural equality of field lists. -/
def JSValue.beqFields : List (String × JSValue) → List (String × JSValue) → Bool
  | [], [] => true
  | (k, x) :: xs, (l, y) :: ys => k == l && JSValue.beq x y && JSValue.beqFields xs ys
  | _, _ => false

end

/-- JavaScript truthiness of a value (`if (v)`). -/
def truthy : JSValue → Bool
  | .undef => false
  | .null => false
  | .bool b => b
  | .num n => n != 0
  | .str s => s != ""
  | _ => true

/-- JavaScript `a || b`. -/
def jsOr (a b : JSValue) : JSValue := if truthy a then a else b

/-- `typeof v === 'function'`. -/
def isFunction : JSValue → Bool
  | .fn _ => true
  | _ => false

/-- `typeof v === 'object'` (true for plain objects, arrays, Buffers and
`null` in JavaScript). -/
def typeofObject : JSValue → Bool
  | .obj _ => true
  | .arr _ => true
  | .buf _ => true
  | .null => true
  | _ => false

/-- `typeof v === 'string'`. -/
def isString : JSValue → Bool
  | .str _ => true
  | _ => false

/-- Argument normalization, lines 52-80 of `src/httpclient.js`: the verb
methods are declared `function(assert, path, req, res, cb)`; first `req`
and `res` are defaulted (`req = req || {}; res = res || {}`), then the
branches on `arguments.length` reassign `req`/`res`/`cb`. `argc` is the
number of arguments actually supplied at the call site, and `req0`, `res0`,
`cb0` are the values of the 3rd, 4th and 5th parameters (`JSValue.undef`
when not supplied). The result is the resolved `(req, res, cb)` triple. -/
def normalizeArgs (argc : Nat) (req0 res0 cb0 : JSValue) :
    JSValue × JSValue × JSValue :=
  let req := jsOr req0 (.obj [])
  let res := jsOr res0 (.obj [])
  if argc == 2 then
    (req, res, .null)
  else if argc == 3 then
    if isFunction req then (.obj [], .obj [], req)
    else (.obj [], req, .null)
  else if argc == 4 then
    if isFunction res then (req, .obj [], res)
    else (req, res, cb0)
  else (req, res, cb0)

/-- A callback slot is "absent" when it holds `null` or `undefined`
(the code only ever tests it with `if (cb)`, and resolves it to `null`
or leaves it `undefined` when no function was supplied). -/
def cbAbsent : JSValue → Bool
  | .null => true
  | .undef => true
  | _ => false

/-- Two resolved `(req, res, cb)` triples agree when `req` and `res` are
equal and the callbacks are either equal or both absent. -/
def tripleEquiv (a b : JSValue × JSValue × JSValue) : Prop :=
  a.1 = b.1 ∧ a.2.1 = b.2.1 ∧
    (a.2.2 = b.2.2 ∨ (cbAbsent a.2.2 = true ∧ cbAbsent b.2.2 = true))

/-- Whether `p` is an initial segment of `l`. -/
def startsWithChars : List Char → List Char → Bool
  | _, [] => true
  | [], _ :: _ => false
  | c :: cs, p :: ps => c == p && startsWithChars cs ps

/-- Whether `p` occurs as a contiguous segment of `l` (at any position,
including the end). -/
def containsSub : List Char → List Char → Bool
  | [], p => p.isEmpty
  | c :: cs, p => startsWithChars (c :: cs) p || containsSub cs p

/-- `s.indexOf(pat) !== -1`: whether `pat` occurs in `s`. -/
def strContains (s pat : String) : Bool := containsSub s.data pat.data

/-- ASCII lowercasing of one character. -/
def lowerChar (c : Char) : Char :=
  if 65 ≤ c.toNat && c.toNat ≤ 90 then Char.ofNat (c.toNat + 32) else c

/-- JavaScript `toLowerCase()` as the client uses it — on HTTP header
names, which are ASCII. -/
def lowerStr (s : String) : String := ⟨s.data.map lowerChar⟩

/-- ASCII uppercasing of one character. -/
def upperChar (c : Char) : Char :=
  if 97 ≤ c.toNat && c.toNat ≤ 122 then Char.ofNat (c.toNat - 32) else c

/-- JavaScript `toUpperCase()` as the client uses it — on the ASCII verb
names of line 110. -/
def upperStr (s : String) : String := ⟨s.data.map upperChar⟩

mutual

/-- JavaScript string coercion `String(v)` for the value shapes the client
can receive as `path` (arrays join their coerced elements with a comma;
Buffers stringify via their UTF-8 decoding, which the claims never touch,
so the model leaves them as the empty string; functions stringify to their
source text, abstracted here as a fixed tag). -/
def jsToStr : JSValue → String
  | .undef => "undefined"
  | .null => "null"
  | .bool b => if b then "true" else "false"
  | .num n => toString n
  | .str s => s
  | .arr es => jsToStrElems es
  | .obj _ => "[object Object]"
  | .buf _ => ""
  | .fn _ => "function"

/-- Array `toString`: elements joined with commas. -/
def jsToStrElems : List JSValue → String
  | [] => ""
  | [x] => jsToStr x
  | x :: xs => jsToStr x ++ "," ++ jsToStrElems xs

end

/-- Characters left unescaped by Node's `querystring.escape`
(alphanumerics and `- _ . ! ~ * ' ( )`). -/
def qsUnreserved (c : Char) : Bool :=
  c.isAlphanum || c = '-' || c = '_' || c = '.' || c = '!' || c = '~' ||
    c = '*' || c.toNat == 39 || c = '(' || c = ')'

/-- One uppercase hexadecimal digit. -/
def hexDigit (n : Nat) : Char :=
  if n < 10 then Char.ofNat (48 + n) else Char.ofNat (55 + n)

/-- Percent-encoding of one byte, `%XX` with uppercase hex. -/
def pctByte (b : Nat) : String :=
  "%" ++ String.singleton (hexDigit (b / 16)) ++ String.singleton (hexDigit (b % 16))

/-- `querystring.escape`: unreserved characters are kept, all others are
percent-encoded byte-by-byte from their UTF-8 encoding. -/
def qsEscapeChar (c : Char) : String :=
  if qsUnreserved c then String.singleton c
  else String.join ((String.utf8EncodeChar c).map (fun b => pctByte b.toNat))

/-- `querystring.escape` applied to a whole string. -/
def qsEscape (s : String) : String := String.join (s.data.map qsEscapeChar)

/-- Coercion `querystring.stringify` applies to primitive mapping values
(strings kept, numbers and booleans stringified, everything else encoded
as the empty string). -/
def qsPrimToStr : JSValue → String
  | .str s => s
  | .num n => toString n
  | .bool b => if b then "true" else "false"
  | _ => ""

/-- `querystring.stringify` on a field list: `escape(k)=escape(v)` pairs
joined with `&`, in key insertion order. -/
def qsStringifyFields (fs : List (String × JSValue)) : String :=
  String.intercalate "&"
    (fs.map (fun kv => qsEscape kv.1 ++ "=" ++ qsEscape (qsPrimToStr kv.2)))

/-- `querystring.stringify` on the `typeof === 'object'` values that can
reach it at line 89 of `src/httpclient.js` (arrays and Buffers enumerate
their indices as keys). -/
def qsStringifyValue : JSValue → String
  | .obj fs => qsStringifyFields fs
  | .arr es => qsStringifyFields (es.enum.map (fun p => (toString p.1, p.2)))
  | .buf bs =>
      qsStringifyFields (((bs.map JSValue.num).enum).map (fun p => (toString p.1, p.2)))
  | _ => ""

/-- Per-call request options, the fields of the `req` parameter read by
`src/httpclient.js` (each `JSValue.undef` when the caller did not supply
the field). -/
structure ReqSpec where
  query : JSValue := JSValue.undef
  data : JSValue := JSValue.undef
  body : JSValue := JSValue.undef
  form : JSValue := JSValue.undef

/-- Lines 82-94 of `src/httpclient.js`: `fullPath = this.path + (path || '')`,
then, for every method other than `post`, `put` and `patch`, if
`req.query || req.data` is a truthy `typeof 'object'` value, its
`querystring.stringify` encoding is appended when nonempty, joined with
`?` when `fullPath` has no `?` yet and with `&` otherwise. -/
def fullPathOf (basePath : String) (path : JSValue) (method : String)
    (req : ReqSpec) : String :=
  let fullPath := basePath ++ jsToStr (jsOr path (.str ""))
  if method ∈ ["post", "put", "patch"] then fullPath
  else
    let queryData := jsOr req.query req.data
    if truthy queryData && typeofObject queryData then
      let queryStr := qsStringifyValue queryData
      if queryStr != "" then
        fullPath ++ (if strContains fullPath "?" then "&" else "?") ++ queryStr
      else fullPath
    else fullPath

/-- The synchronous prelude of a verb call (everything before any network
activity), with an explicit error channel so that the spec's
"fails synchronously with `InvalidArgument`" can be stated against it.
The translation of lines 82-94 never uses the channel: the source
performs no validation of `path` (a falsy `path` is coerced to `''` and
any other value is string-coerced by the `+` concatenation). -/
inductive SyncErr : Type where
  | invalidArgument : SyncErr
deriving DecidableEq, Repr

/-- The synchronous phase of a verb call: resolves the full request path;
no check can fail. -/
def verbPrelude (basePath : String) (path : JSValue) (method : String)
    (req : ReqSpec) : Except SyncErr String :=
  .ok (fullPathOf basePath path method req)

/-- Two-hex-digit rendering of a code point below 256 (for `\u00XX`
escapes). -/
def hex2 (n : Nat) : String :=
  String.singleton (hexDigit (n / 16 % 16)) ++ String.singleton (hexDigit (n % 16))

/-- JSON string escaping of one character, as `JSON.stringify` performs it. -/
def jsonQuoteChar (c : Char) : String :=
  if c = '"' then "\\\""
  else if c = '\\' then "\\\\"
  else if c = '\n' then "\\n"
  else if c = '\t' then "\\t"
  else if c = '\r' then "\\r"
  else if c.toNat < 32 then "\\u00" ++ hex2 c.toNat
  else String.singleton c

/-- A JSON string literal for `s`. -/
def jsonQuote (s : String) : String :=
  "\"" ++ String.join (s.data.map jsonQuoteChar) ++ "\""

mutual

/-- `JSON.stringify` on the values the client can be asked to serialize.
Node `Buffer`s stringify through their `toJSON()` form
`{"type":"Buffer","data":[...]}`; object fields whose value is `undefined`
or a function are dropped; numbers are the integral numbers of the model.
A top-level `undefined` or function yields no JSON text at all in
JavaScript — unreachable here because line 147 guards with truthiness —
and is rendered as `"undefined"`. -/
def jsonStringify : JSValue → String
  | .undef => "undefined"
  | .null => "null"
  | .bool b => if b then "true" else "false"
  | .num n => toString n
  | .str s => jsonQuote s
  | .arr es => "[" ++ jsonStringifyElems es ++ "]"
  | .obj fs => "\x7b" ++ jsonStringifyFields fs ++ "\x7d"
  | .buf bs =>
      "\x7b\"type\":\"Buffer\",\"data\":[" ++
        String.intercalate "," (bs.map toString) ++ "]\x7d"
  | .fn _ => "undefined"

/-- Array elements, comma-separated. -/
def jsonStringifyElems : List JSValue → String
  | [] => ""
  | [x] => jsonStringify x
  | x :: xs => jsonStringify x ++ "," ++ jsonStringifyElems xs

/-- Object fields, comma-separated, skipping `undefined` and function
values as `JSON.stringify` does. -/
def jsonStringifyFields : List (String × JSValue) → String
  | [] => ""
  | (k, v) :: fs =>
      match v with
      | .undef => jsonStringifyFields fs
      | .fn _ => jsonStringifyFields fs
      | _ =>
        let rest := jsonStringifyFields fs
        jsonQuote k ++ ":" ++ jsonStringify v ++
          (if rest = "" then "" else ",") ++ rest

end

/-- A piece of data written to the request stream: either a string chunk
or raw Buffer bytes. -/
inductive Chunk : Type where
  | str (s : String) : Chunk
  | bytes (bs : List Nat) : Chunk
deriving DecidableEq

/-- The observable effect of the body-writing block: the `Content-Type`
and `Content-Length` headers set on the request, and the chunks written. -/
structure BodyEffect where
  contentType : Option String
  contentLength : Option Nat
  chunks : List Chunk
deriving DecidableEq

/-- The empty effect (nothing set, nothing written). -/
def BodyEffect.none : BodyEffect := ⟨Option.none, Option.none, []⟩

/-- Lines 143-164 of `src/httpclient.js`: for `post`, `put` and `patch`,
`bodyData = req.body || req.data`; when truthy, the branch chain is
`typeof bodyData === 'object'` (JSON-serialize, set `Content-Type:
application/json` and `Content-Length` to the UTF-8 byte length, write
the JSON text), else `typeof bodyData === 'string'` (set `Content-Length`
only, write the string verbatim), else `Buffer.isBuffer(bodyData)` (set
`Content-Length` to the byte count, write the bytes). Since a Buffer
satisfies `typeof === 'object'` in JavaScript, the Buffer branch is
unreachable. -/
def writeBody (method : String) (req : ReqSpec) : BodyEffect :=
  if method ∈ ["post", "put", "patch"] then
    let bodyData := jsOr req.body req.data
    if truthy bodyData then
      if typeofObject bodyData then
        let jsonData := jsonStringify bodyData
        ⟨some "application/json", some jsonData.utf8ByteSize, [.str jsonData]⟩
      else
        match bodyData with
        | .str s => ⟨Option.none, some s.utf8ByteSize, [.str s]⟩
        | .buf bs => ⟨Option.none, some bs.length, [.bytes bs]⟩
        | _ => BodyEffect.none
    else BodyEffect.none
  else BodyEffect.none

/-- Skip JSON whitespace. -/
def skipWs : List Char → List Char
  | c :: cs => if c = ' ' || c = '\n' || c = '\t' || c = '\r' then skipWs cs else c :: cs
  | [] => []

/-- Parse the remainder of a JSON string literal (the opening quote
already consumed), handling the escape sequences the client's data can
contain. Returns the decoded string and the rest of the input. -/
def parseStringChars : List Char → Option (String × List Char)
  | [] => Option.none
  | c :: cs =>
    if c = '"' then some ("", cs)
    else if c = '\\' then
      match cs with
      | e :: cs2 =>
        let dec : Option Char :=
          if e = '"' then some '"'
          else if e = '\\' then some '\\'
          else if e = '/' then some '/'
          else if e = 'n' then some '\n'
          else if e = 't' then some '\t'
          else if e = 'r' then some '\r'
          else Option.none
        match dec with
        | some d => (parseStringChars cs2).map (fun p => (String.singleton d ++ p.1, p.2))
        | Option.none => Option.none
      | [] => Option.none
    else (parseStringChars cs).map (fun p => (String.singleton c ++ p.1, p.2))

/-- Digits accumulated into a natural number. -/
def digitsToNat (ds : List Char) : Nat :=
  ds.foldl (fun n c => n * 10 + (c.toNat - 48)) 0

/-- Parse a JSON integer literal (optional leading minus, one or more
digits). The model restricts JSON numbers to integers — the client's
data never carries fractions or exponents. -/
def parseIntLit (cs : List Char) : Option (Int × List Char) :=
  match cs with
  | '-' :: rest =>
    let ds := rest.takeWhile Char.isDigit
    if ds.isEmpty then Option.none
    else some (-(digitsToNat ds : Int), rest.dropWhile Char.isDigit)
  | _ =>
    let ds := cs.takeWhile Char.isDigit
    if ds.isEmpty then Option.none
    else some ((digitsToNat ds : Int), cs.dropWhile Char.isDigit)

mutual

/-- Recursive-descent JSON value parser (the model of `JSON.parse`),
fuelled to make termination structural. Returns the parsed value and the
unconsumed input, or a parse-error message. -/
def parseVal : Nat → List Char → Except String (JSValue × List Char)
  | 0, _ => .error "too much nesting"
  | fuel + 1, cs =>
    match skipWs cs with
    | [] => .error "Unexpected end of JSON input"
    | c :: rest =>
      if c = 'n' then
        match rest with
        | 'u' :: 'l' :: 'l' :: r => .ok (.null, r)
        | _ => .error "Unexpected token"
      else if c = 't' then
        match rest with
        | 'r' :: 'u' :: 'e' :: r => .ok (.bool true, r)
        | _ => .error "Unexpected token"
      else if c = 'f' then
        match rest with
        | 'a' :: 'l' :: 's' :: 'e' :: r => .ok (.bool false, r)
        | _ => .error "Unexpected token"
      else if c = '"' then
        match parseStringChars rest with
        | some (s, r) => .ok (.str s, r)
        | Option.none => .error "Unterminated string"
      else if c = '[' then
        match skipWs rest with
        | ']' :: r => .ok (.arr [], r)
        | cs2 => parseElems fuel cs2 []
      else if c = '\x7b' then
        match skipWs rest with
        | '\x7d' :: r => .ok (.obj [], r)
        | cs2 => parseFields fuel cs2 []
      else
        match parseIntLit (c :: rest) with
        | some (n, r) => .ok (.num n, r)
        | Option.none => .error "Unexpected token"

/-- Parse the elements of a nonempty JSON array (after `[`). -/
def parseElems : Nat → List Char → List JSValue → Except String (JSValue × List Char)
  | 0, _, _ => .error "too much nesting"
  | fuel + 1, cs, acc =>
    match parseVal fuel cs with
    | .error e => .error e
    | .ok (v, rest) =>
      match skipWs rest with
      | ',' :: r => parseElems fuel r (acc ++ [v])
      | ']' :: r => .ok (.arr (acc ++ [v]), r)
      | _ => .error "Expected comma or closing bracket"

/-- Parse the fields of a nonempty JSON object (after the opening brace). -/
def parseFields : Nat → List Char → List (String × JSValue) →
    Except String (JSValue × List Char)
  | 0, _, _ => .error "too much nesting"
  | fuel + 1, cs, acc =>
    match skipWs cs with
    | '"' :: cs1 =>
      match parseStringChars cs1 with
      | Option.none => .error "Unterminated string"
      | some (k, cs2) =>
        match skipWs cs2 with
        | ':' :: cs3 =>
          match parseVal fuel cs3 with
          | .error e => .error e
          | .ok (v, rest) =>
            match skipWs rest with
            | ',' :: r => parseFields fuel r (acc ++ [(k, v)])
            | '\x7d' :: r => .ok (.obj (acc ++ [(k, v)]), r)
            | _ => .error "Expected comma or closing brace"
        | _ => .error "Expected colon"
    | _ => .error "Expected string key"

end

/-- `JSON.parse`: parse one value and require only whitespace after it.
An empty (or all-whitespace) input fails, as `JSON.parse('')` throws. -/
def jsonParse (s : String) : Except String JSValue :=
  match parseVal (s.length + 1) s.data with
  | .error e => .error e
  | .ok (v, rest) =>
    match skipWs rest with
    | [] => .ok v
    | _ => .error "Unexpected token after value"

/-- The response as the transport hands it to the `end` listener: status
code, headers (Node lowercases incoming header names), and the body text
accumulated from the data chunks. -/
structure RawResponse where
  statusCode : Nat
  headers : List (String × String)
  body : String

/-- The response after the `end` listener's processing (lines 186-201):
`data` is the parsed JSON value when parsing was attempted and succeeded,
`JSValue.null` when parsing was attempted and failed (the catch block
assigns `response.data = null`), and `JSValue.undef` when parsing was
never attempted; `parseError` holds the caught parse error's message;
`ok`/`clientError`/`serverError` are the convenience flags. -/
structure ProcessedResponse where
  statusCode : Nat
  headers : List (String × String)
  body : String
  data : JSValue
  parseError : Option String
  ok : Bool
  clientError : Bool
  serverError : Bool

/-- Lines 186-201 of `src/httpclient.js`: after the stream ends, read
`content-type` (defaulting to `''`), attempt `JSON.parse(response.body)`
exactly when it contains `application/json`, recovering from a parse
failure by setting `data = null` and recording `parseError`; then compute
the status-range convenience flags. -/
def processEnd (r : RawResponse) : ProcessedResponse :=
  let contentType := (List.lookup "content-type" r.headers).getD ""
  let dp : JSValue × Option String :=
    if strContains contentType "application/json" then
      match jsonParse r.body with
      | .ok v => (v, Option.none)
      | .error e => (.null, some e)
    else (.undef, Option.none)
  { statusCode := r.statusCode
    headers := r.headers
    body := r.body
    data := dp.1
    parseError := dp.2
    ok := decide (200 ≤ r.statusCode ∧ r.statusCode < 300)
    clientError := decide (400 ≤ r.statusCode ∧ r.statusCode < 500)
    serverError := decide (500 ≤ r.statusCode) }

/-- The client configuration fields read by the phases modelled here
(lines 20-31 of `src/httpclient.js`): `path` is the base path, `headers`
the default header mapping (doubling, in the assertion phase, as the
default expected headers — a header value of `Option.none` models an
entry explicitly set to `undefined`), `status` the default expected
status. -/
structure HttpClientCfg where
  path : String := ""
  headers : List (String × Option String) := []
  status : Option Nat := Option.none

/-- Per-call expected-response options, the fields of the `res` parameter
read by the assertion phase; each `Option.none` models the field being
`undefined`. -/
structure ExpSpec where
  status : Option Nat := Option.none
  headers : Option (List (String × Option String)) := Option.none
  body : Option String := Option.none
  data : Option JSValue := Option.none
  ok : Option Bool := Option.none

/-- Which assertion call a check is (used to identify the assertion error
it throws on failure). -/
inductive CheckKind : Type where
  | status : CheckKind
  | header (name : String) : CheckKind
  | body : CheckKind
  | data : CheckKind
  | ok : CheckKind
deriving DecidableEq, Repr

/-- One executed `assert.equal`/`assert.deepEqual` call with its result. -/
structure CheckCall where
  kind : CheckKind
  passed : Bool
deriving DecidableEq, Repr

/-- `underscore.extend({}, a, b)`: the keys of `a` in their order with
`b`'s values overriding in place, followed by the keys of `b` not in `a`,
in `b`'s order. -/
def extendMap (a b : List (String × Option String)) : List (String × Option String) :=
  a.map (fun kv =>
    match List.lookup kv.1 b with
    | some v => (kv.1, v)
    | Option.none => kv)
  ++ b.filter (fun kv => (List.lookup kv.1 a).isNone)

/-- JavaScript truthiness of an optional number (`undefined` and `0` are
falsy). -/
def truthyNat : Option Nat → Bool
  | some n => n != 0
  | Option.none => false

/-- `res.status || self.status` (line 207). -/
def jsOrStat (a b : Option Nat) : Option Nat := if truthyNat a then a else b

/-- Lines 206-211: when `res.status || self.status` is truthy, one
`assert.equal(response.statusCode, expectedStatus)` call. -/
def statusChecks (cfg : HttpClientCfg) (res : ExpSpec) (resp : ProcessedResponse) :
    List CheckCall :=
  match jsOrStat res.status cfg.status with
  | some s => if s != 0 then [⟨.status, resp.statusCode == s⟩] else []
  | Option.none => []

/-- Lines 213-222: `expectedHeaders = underscore.extend({}, self.headers,
res.headers || {})`; for each key whose expected value is not `undefined`,
one `assert.equal(response.headers[key.toLowerCase()], expected)` call. -/
def headerChecks (cfg : HttpClientCfg) (res : ExpSpec) (resp : ProcessedResponse) :
    List CheckCall :=
  (extendMap cfg.headers (res.headers.getD [])).filterMap (fun kv =>
    match kv.2 with
    | some v => some ⟨.header kv.1, List.lookup (lowerStr kv.1) resp.headers == some v⟩
    | Option.none => Option.none)

/-- Lines 224-227: exact body comparison when `res.body !== undefined`. -/
def bodyChecks (res : ExpSpec) (resp : ProcessedResponse) : List CheckCall :=
  match res.body with
  | some b => [⟨.body, resp.body == b⟩]
  | Option.none => []

/-- Lines 229-232: `assert.deepEqual(response.data, res.data)` when
`res.data !== undefined`. -/
def dataChecks (res : ExpSpec) (resp : ProcessedResponse) : List CheckCall :=
  match res.data with
  | some d => [⟨.data, JSValue.beq resp.data d⟩]
  | Option.none => []

/-- Lines 234-237: `assert.equal(response.ok, res.ok)` when
`res.ok !== undefined`. -/
def okChecks (res : ExpSpec) (resp : ProcessedResponse) : List CheckCall :=
  match res.ok with
  | some b => [⟨.ok, resp.ok == b⟩]
  | Option.none => []

/-- The assertion calls of the try-block (lines 205-238), in source
order: status, headers, exact body, deep data, ok flag. -/
def orderedChecks (cfg : HttpClientCfg) (res : ExpSpec) (resp : ProcessedResponse) :
    List CheckCall :=
  statusChecks cfg res resp ++ headerChecks cfg res resp ++
    bodyChecks res resp ++ dataChecks res resp ++ okChecks res resp

/-- Run assertion calls in sequence, with a failing call throwing (the
`Except` error) and aborting the rest — the semantics of the try-block. -/
def runChecksE : List CheckCall → Except CheckKind Unit
  | [] => .ok ()
  | c :: rest => if c.passed then runChecksE rest else .error c.kind

/-- The assertion phase: `some k` when check `k` threw the assertion
error caught at line 239, `none` when every check passed. -/
def assertPhase (cfg : HttpClientCfg) (res : ExpSpec) (resp : ProcessedResponse) :
    Option CheckKind :=
  match runChecksE (orderedChecks cfg res resp) with
  | .ok () => Option.none
  | .error k => some k

/-- The capabilities of the caller-supplied assertion handle that the
routing code branches on: whether `assert.done` is present. -/
structure AssertH where
  hasDone : Bool
deriving DecidableEq, Repr

/-- The errors flowing through the terminal-action routing. -/
inductive JsErr : Type where
  | assertionErr (k : CheckKind) : JsErr
  | transportErr (code : String) : JsErr
  | timeoutErr (ms : Nat) : JsErr
deriving DecidableEq, Repr

/-- The `code` property of an error object (line 136 sets `TIMEOUT` on
timeout errors; transport errors carry their own codes; assertion errors
have none). -/
def JsErr.code : JsErr → Option String
  | .timeoutErr _ => some "TIMEOUT"
  | .transportErr c => some c
  | .assertionErr _ => Option.none

/-- A terminal action of one verb invocation: `cb(response)`,
`cb(responseOrNull, error)`, `assert.done()`, `assert.done(error)`, or a
thrown error. -/
inductive TermAct : Type where
  | cbOk (resp : ProcessedResponse) : TermAct
  | cbErr (resp : Option ProcessedResponse) (e : JsErr) : TermAct
  | doneOk : TermAct
  | doneErr (e : JsErr) : TermAct
  | thrown (e : JsErr) : TermAct

/-- Lines 249-254: the success tail of the `end` listener — `cb(response)`
if a callback exists, else `assert.done()` if `assert && assert.done`,
else nothing. -/
def successTail (assert : Option AssertH) (hasCb : Bool)
    (resp : ProcessedResponse) : List TermAct :=
  if hasCb then [.cbOk resp]
  else
    match assert with
    | some a => if a.hasDone then [.doneOk] else []
    | Option.none => []

/-- The `end` listener (lines 186-255): process the response, run the
assertion phase when an assert handle was supplied, route a caught
assertion error to `cb(response, err)` / `assert.done(err)` / `throw`
(lines 239-246), and otherwise fall through to the success tail. The
result is the list of terminal actions performed, in order. -/
def endHandler (assert : Option AssertH) (hasCb : Bool) (cfg : HttpClientCfg)
    (res : ExpSpec) (raw : RawResponse) : List TermAct :=
  let resp := processEnd raw
  match assert with
  | some a =>
    match assertPhase cfg res resp with
    | some k =>
      if hasCb then [.cbErr (some resp) (.assertionErr k)]
      else if a.hasDone then [.doneErr (.assertionErr k)]
      else [.thrown (.assertionErr k)]
    | Option.none => successTail (some a) hasCb resp
  | Option.none => successTail Option.none hasCb resp

/-- The `error` listener (lines 258-273): `cb(null, error)` if a callback
exists, else `assert.done(error)` if `assert && assert.done`, else
`throw error`. -/
def errorHandler (assert : Option AssertH) (hasCb : Bool) (e : JsErr) :
    List TermAct :=
  if hasCb then [.cbErr Option.none e]
  else
    match assert with
    | some a => if a.hasDone then [.doneErr e] else [.thrown e]
    | Option.none => [.thrown e]

/-- The timeout listener (lines 132-141, registered only when a timeout
is configured): abort the request (the returned flag), build an error
with `code = 'TIMEOUT'`, and invoke `cb(null, error)` when a callback
exists — with no callback, the handler performs no delivery at all. -/
def timeoutHandler (hasCb : Bool) (ms : Nat) : List TermAct × Bool :=
  ((if hasCb then [.cbErr Option.none (.timeoutErr ms)] else []), true)

/-- The transport events a single in-flight request can deliver to the
listeners the client registers. -/
inductive TransportEvent : Type where
  | endEvt (raw : RawResponse) : TransportEvent
  | errEvt (e : JsErr) : TransportEvent
  | timeoutEvt (ms : Nat) : TransportEvent

/-- The terminal actions one delivered event produces. -/
def dispatchEvent (assert : Option AssertH) (hasCb : Bool) (cfg : HttpClientCfg)
    (res : ExpSpec) : TransportEvent → List TermAct
  | .endEvt raw => endHandler assert hasCb cfg res raw
  | .errEvt e => errorHandler assert hasCb e
  | .timeoutEvt ms => (timeoutHandler hasCb ms).1

/-- Line 37: the verb methods installed on the prototype. -/
def methods : List String :=
  ["get", "post", "head", "put", "del", "trace", "options", "connect", "patch"]

/-- Line 110: the HTTP method name sent on the wire — `del` becomes
`DELETE`, every other verb is uppercased. -/
def httpMethodName (m : String) : String :=
  if m = "del" then "DELETE" else upperStr m

/-- `assert && assert.done` as a boolean capability test. -/
def assertHasDone : Option AssertH → Bool
  | some a => a.hasDone
  | Option.none => false

/-! Theorems for the claims. -/

/-- C4: for every supported call arity from 2 to 5 arguments —
`(handle, path)`, `(handle, path, callback)`, `(handle, path,
expectations)`, `(handle, path, req, callback)`, `(handle, path, req,
expectations)` — the argument normalizer resolves the same final
`(req, res, callback)` triple as the explicit 5-argument form with the
omitted fields absent. `f` is any function value, `r` any truthy request
object, `e` any truthy non-function expectations value. -/
theorem c4_argument_normalizer_arities (f r e : JSValue)
    (hf : isFunction f = true) (hr : truthy r = true)
    (he : truthy e = true) (he2 : isFunction e = false) :
    tripleEquiv (normalizeArgs 2 .undef .undef .undef)
      (normalizeArgs 5 .undef .undef .undef) ∧
    tripleEquiv (normalizeArgs 3 f .undef .undef)
      (normalizeArgs 5 .undef .undef f) ∧
    tripleEquiv (normalizeArgs 3 e .undef .undef)
      (normalizeArgs 5 .undef e .undef) ∧
    tripleEquiv (normalizeArgs 4 r f .undef)
      (normalizeArgs 5 r .undef f) ∧
    tripleEquiv (normalizeArgs 4 r e .undef)
      (normalizeArgs 5 r e .undef) := by
  have hft : truthy f = true := by cases f <;> simp_all [isFunction, truthy]
  refine ⟨?_, ?_, ?_, ?_, ?_⟩ <;>
    simp [normalizeArgs, jsOr, tripleEquiv, cbAbsent, hf, hr, he, he2, hft,
      show truthy JSValue.undef = false from rfl]

/-- Witness for C4 at concrete values: a function, a nonempty request
object and an empty expectations object. -/
theorem c4_argument_normalizer_arities_witness :
    tripleEquiv (normalizeArgs 2 .undef .undef .undef)
      (normalizeArgs 5 .undef .undef .undef) ∧
    tripleEquiv (normalizeArgs 3 (.fn 0) .undef .undef)
      (normalizeArgs 5 .undef .undef (.fn 0)) ∧
    tripleEquiv (normalizeArgs 3 (.obj []) .undef .undef)
      (normalizeArgs 5 .undef (.obj []) .undef) ∧
    tripleEquiv (normalizeArgs 4 (.obj [("k", .str "v")]) (.fn 0) .undef)
      (normalizeArgs 5 (.obj [("k", .str "v")]) .undef (.fn 0)) ∧
    tripleEquiv (normalizeArgs 4 (.obj [("k", .str "v")]) (.obj []) .undef)
      (normalizeArgs 5 (.obj [("k", .str "v")]) (.obj []) .undef) :=
  c4_argument_normalizer_arities (.fn 0) (.obj [("k", .str "v")]) (.obj [])
    rfl rfl rfl rfl

/-- C7 counterexample: a call whose `path` is the number `42` — not a
non-empty string — does NOT fail with an `InvalidArgument` error: the
synchronous prelude succeeds, coercing the path into the URL
(`/api` + `42` = `/api42`). The source has no path validation at all. -/
theorem c7_no_sync_validation_counterexample :
    verbPrelude "/api" (.num 42) "get" {} = .ok "/api42" ∧
    verbPrelude "/api" (.num 42) "get" {} ≠ .error SyncErr.invalidArgument := by
  refine ⟨rfl, ?_⟩
  intro h
  exact Except.noConfusion h

/-- C7 amended: the code performs no synchronous validation of `path`:
for every path value (string or not, empty or not) the synchronous
prelude succeeds and resolves the full path, and a falsy path (such as
`undefined`, `null` or the empty string) is replaced by `''` before being
concatenated onto the base path. -/
theorem c7_no_sync_validation (basePath : String) (path : JSValue)
    (method : String) (req : ReqSpec) :
    verbPrelude basePath path method req =
      .ok (fullPathOf basePath path method req) ∧
    (truthy path = false → jsOr path (.str "") = .str "") := by
  refine ⟨rfl, ?_⟩
  intro h
  simp [jsOr, h]

/-- Witness for C7 (amended) at `path = undefined`. -/
theorem c7_no_sync_validation_witness :
    verbPrelude "/api" JSValue.undef "get" {} =
      .ok (fullPathOf "/api" JSValue.undef "get" {}) ∧
    (truthy JSValue.undef = false → jsOr .undef (.str "") = .str "") :=
  c7_no_sync_validation "/api" JSValue.undef "get" {}

/-- C8 (code evaluated at the failing input): for POST, a mapping body is
JSON-serialized with `Content-Type: application/json` and `Content-Length`
equal to the encoded byte length, and a string body is written verbatim
with only `Content-Length` — but a Buffer body, because `typeof buffer ===
'object'` in JavaScript, falls into the JSON branch and is serialized as
`JSON.stringify(buffer)` (its `toJSON` form) with `Content-Type:
application/json`, instead of being written verbatim: the explicit
`Buffer.isBuffer` branch at line 158 of `src/httpclient.js` is
unreachable. -/
theorem c8_body_serialization_buffer_bug :
    writeBody "post" { data := .obj [("x", .num 1)] } =
      ⟨some "application/json", some 7, [.str "\x7b\"x\":1\x7d"]⟩ ∧
    writeBody "post" { data := .str "hello" } =
      ⟨Option.none, some 5, [.str "hello"]⟩ ∧
    writeBody "post" { data := .buf [1, 2, 3] } =
      ⟨some "application/json", some 32,
        [.str "\x7b\"type\":\"Buffer\",\"data\":[1,2,3]\x7d"]⟩ ∧
    writeBody "post" { data := .buf [1, 2, 3] } ≠
      ⟨Option.none, some 3, [.bytes [1, 2, 3]]⟩ := by
  refine ⟨rfl, rfl, rfl, ?_⟩
  intro h
  have : (some "application/json" : Option String) = Option.none :=
    congrArg BodyEffect.contentType h
  exact Option.noConfusion this

/-- Helper: `this.path + (path || '')` for a string path equals plain
concatenation (an empty string path is falsy, but coercing the `''`
default gives the same result). -/
theorem jsToStr_jsOr_str (p : String) :
    jsToStr (jsOr (.str p) (.str "")) = p := by
  by_cases h : p = "" <;> simp [jsOr, truthy, jsToStr, h]

/-- C9: for every verb without a conventional request body (the six verbs
whose wire names are GET, HEAD, DELETE, OPTIONS, TRACE, CONNECT), the
request path sent equals `basePath ++ path`; when `req.query || req.data`
is a mapping, its URL-encoding is appended as a query string joined with
`?` when the (full) path contains no `?` and with `&` otherwise (an
encoding that comes out empty appends nothing); when neither field was
supplied the path is sent unchanged. -/
theorem c9_bodyless_path_and_query (basePath p : String) (req : ReqSpec)
    (method : String) (hm : method ∈ methods)
    (hv : httpMethodName method ∈
      ["GET", "HEAD", "DELETE", "OPTIONS", "TRACE", "CONNECT"]) :
    (∀ fs, jsOr req.query req.data = .obj fs →
      fullPathOf basePath (.str p) method req =
        (if qsStringifyFields fs = "" then basePath ++ p
         else (basePath ++ p) ++
           (if strContains (basePath ++ p) "?" then "&" else "?") ++
             qsStringifyFields fs)) ∧
    (jsOr req.query req.data = .undef →
      fullPathOf basePath (.str p) method req = basePath ++ p) := by
  have hnb : method ∉ ["post", "put", "patch"] := by
    fin_cases hm <;> revert hv <;> decide
  constructor
  · intro fs h
    by_cases hq : qsStringifyFields fs = "" <;>
      simp [fullPathOf, hnb, h, truthy, typeofObject, qsStringifyValue,
        jsToStr_jsOr_str, hq]
  · intro h
    simp [fullPathOf, hnb, h, truthy, jsToStr_jsOr_str]

/-- Witness for C9: a GET with base path `/api`, path `/users` and query
mapping `{a: "1", b: "two words"}`, and a GET with no query data. -/
theorem c9_bodyless_path_and_query_witness :
    fullPathOf "/api" (.str "/users") "get"
        { data := .obj [("a", .str "1"), ("b", .str "two words")] } =
      "/api/users?a=1&b=two%20words" ∧
    fullPathOf "/api" (.str "/users") "get" {} = "/api" ++ "/users" := by
  have h := c9_bodyless_path_and_query "/api" "/users"
    { data := .obj [("a", .str "1"), ("b", .str "two words")] } "get"
    (by decide) (by decide)
  have h2 := c9_bodyless_path_and_query "/api" "/users" {} "get"
    (by decide) (by decide)
  refine ⟨?_, h2.2 rfl⟩
  exact (h.1 [("a", .str "1"), ("b", .str "two words")] rfl).trans (by decide)

/-- C6 counterexample: a response with `content-type: application/json`
and an EMPTY body. The claim says parsing is attempted only when the body
is non-empty (so no `parseError` here) and that on failure `parsedData`
is left absent — but the code attempts `JSON.parse('')`, records the
parse error, and sets `response.data = null` (a present value, not an
absent property). -/
theorem c6_empty_body_parse_counterexample :
    (processEnd ⟨200, [("content-type", "application/json")], ""⟩).parseError ≠
      Option.none ∧
    (processEnd ⟨200, [("content-type", "application/json")], ""⟩).data =
      JSValue.null := by
  refine ⟨?_, rfl⟩
  intro h
  exact Option.noConfusion h

/-- C6 amended: after the stream ends, JSON parsing is attempted exactly
when the `content-type` contains `application/json` — regardless of
whether the body is empty; on success `data` is set to the parsed value
with no `parseError`; on failure `parseError` is set and `data` is set to
`null` (not left absent); the parse failure is contained by the
`try`/`catch` and never escapes (processing always completes into a
response value). -/
theorem c6_json_parse_policy (r : RawResponse) :
    (strContains ((List.lookup "content-type" r.headers).getD "")
        "application/json" = false →
      (processEnd r).data = .undef ∧ (processEnd r).parseError = Option.none) ∧
    (∀ v, strContains ((List.lookup "content-type" r.headers).getD "")
        "application/json" = true → jsonParse r.body = .ok v →
      (processEnd r).data = v ∧ (processEnd r).parseError = Option.none) ∧
    (∀ e, strContains ((List.lookup "content-type" r.headers).getD "")
        "application/json" = true → jsonParse r.body = .error e →
      (processEnd r).data = .null ∧ (processEnd r).parseError = some e) := by
  refine ⟨?_, ?_, ?_⟩
  · intro h
    simp [processEnd, h]
  · intro v h hp
    simp [processEnd, h, hp]
  · intro e h hp
    simp [processEnd, h, hp]

/-- Witness for C6 (amended): a successful parse of body `1` under a JSON
content type, and the no-JSON-content-type case. -/
theorem c6_json_parse_policy_witness :
    ((processEnd ⟨200, [("content-type", "application/json")], "1"⟩).data =
        .num 1 ∧
      (processEnd ⟨200, [("content-type", "application/json")], "1"⟩).parseError =
        Option.none) ∧
    ((processEnd ⟨200, [("content-type", "text/html")], "1"⟩).data = .undef ∧
      (processEnd ⟨200, [("content-type", "text/html")], "1"⟩).parseError =
        Option.none) :=
  ⟨(c6_json_parse_policy ⟨200, [("content-type", "application/json")], "1"⟩).2.1
      (.num 1) rfl rfl,
    (c6_json_parse_policy ⟨200, [("content-type", "text/html")], "1"⟩).1 rfl⟩

/-- Helper: sequentially running assertion calls with exception semantics
raises exactly the first failing call (and nothing when all pass). -/
theorem runChecksE_eq_find (l : List CheckCall) :
    runChecksE l =
      (match l.find? (fun c => !c.passed) with
       | some c => .error c.kind
       | Option.none => .ok ()) := by
  induction l with
  | nil => rfl
  | cons c rest ih =>
    by_cases h : c.passed
    · rw [runChecksE, if_pos h, ih, List.find?_cons_of_neg]
      simp [h]
    · rw [runChecksE, if_neg h, List.find?_cons_of_pos]
      simp [h]

/-- C2: when an assertion handle is supplied, the checks run in the order
status, headers, exact body, deep data, ok flag; an absent expectation
contributes no check; the assertion phase raises exactly the first
failing check (all later checks are skipped, so at most one assertion
error arises); and that single error is routed to the callback as
`(response, assertionError)` when a callback was supplied, else to
`assert.done(error)` when the handle has a completion signal, else it is
thrown. -/
theorem c2_assertion_order_and_routing (cfg : HttpClientCfg) (res : ExpSpec)
    (raw : RawResponse) (a : AssertH) (hasCb : Bool) :
    assertPhase cfg res (processEnd raw) =
      ((statusChecks cfg res (processEnd raw) ++
        headerChecks cfg res (processEnd raw) ++
        bodyChecks res (processEnd raw) ++
        dataChecks res (processEnd raw) ++
        okChecks res (processEnd raw)).find? (fun c => !c.passed)).map
          CheckCall.kind ∧
    ((res.status = Option.none → cfg.status = Option.none →
        statusChecks cfg res (processEnd raw) = []) ∧
      (cfg.headers = [] → res.headers = Option.none →
        headerChecks cfg res (processEnd raw) = []) ∧
      (res.body = Option.none → bodyChecks res (processEnd raw) = []) ∧
      (res.data = Option.none → dataChecks res (processEnd raw) = []) ∧
      (res.ok = Option.none → okChecks res (processEnd raw) = [])) ∧
    (∀ k, assertPhase cfg res (processEnd raw) = some k →
      endHandler (some a) hasCb cfg res raw =
        [if hasCb then .cbErr (some (processEnd raw)) (.assertionErr k)
         else if a.hasDone then .doneErr (.assertionErr k)
         else .thrown (.assertionErr k)]) := by
  refine ⟨?_, ⟨?_, ?_, ?_, ?_, ?_⟩, ?_⟩
  · rw [assertPhase, orderedChecks, runChecksE_eq_find]
    cases (statusChecks cfg res (processEnd raw) ++
        headerChecks cfg res (processEnd raw) ++
        bodyChecks res (processEnd raw) ++
        dataChecks res (processEnd raw) ++
        okChecks res (processEnd raw)).find? (fun c => !c.passed) <;> rfl
  · intro h1 h2
    simp [statusChecks, jsOrStat, truthyNat, h1, h2]
  · intro h1 h2
    simp [headerChecks, extendMap, h1, h2]
  · intro h
    simp [bodyChecks, h]
  · intro h
    simp [dataChecks, h]
  · intro h
    simp [okChecks, h]
  · intro k hk
    rw [endHandler]
    simp only [hk]
    cases hasCb <;> cases hc : a.hasDone <;> simp [hc]

/-- Witness for C2: config expects status 200, the response arrives with
status 404 and a mismatched body expectation; exactly the status error is
raised and, with no callback and a done-capable handle, it is routed to
`assert.done(error)`. -/
theorem c2_assertion_order_and_routing_witness :
    endHandler (some ⟨true⟩) false { status := some 200 } { body := some "y" }
        ⟨404, [], "x"⟩ =
      [.doneErr (.assertionErr .status)] :=
  ((c2_assertion_order_and_routing { status := some 200 } { body := some "y" }
      ⟨404, [], "x"⟩ ⟨true⟩ false).2.2 CheckKind.status rfl).trans (by rfl)

/-- Helper: looking up a key in the overridden copy of the default map:
present keys get the per-call value when one exists (else keep their
default), absent keys stay absent. -/
theorem lookup_map_override (a b : List (String × Option String)) (k : String) :
    List.lookup k (a.map (fun kv =>
        match List.lookup kv.1 b with
        | some v => (kv.1, v)
        | Option.none => kv)) =
      (match List.lookup k a with
       | some v => some ((List.lookup k b).getD v)
       | Option.none => Option.none) := by
  induction a with
  | nil => rfl
  | cons kv as ih =>
    obtain ⟨k1, v1⟩ := kv
    by_cases h : k = k1
    · subst h
      cases hkb : List.lookup k b <;>
        simp [List.lookup_cons, hkb]
    · have hb : (k == k1) = false := by simp [h]
      cases hkb : List.lookup k1 b <;>
        simp [List.lookup_cons, hkb, hb, ih]

/-- Helper: filtering the per-call map down to keys absent from the
default map does not affect lookups of a key absent from the defaults. -/
theorem lookup_filter_absent (a b : List (String × Option String)) (k : String)
    (h : List.lookup k a = Option.none) :
    List.lookup k (b.filter (fun kv => (List.lookup kv.1 a).isNone)) =
      List.lookup k b := by
  induction b with
  | nil => rfl
  | cons kv bs ih =>
    obtain ⟨k1, v1⟩ := kv
    rw [List.filter_cons]
    by_cases hk : k = k1
    · subst hk
      simp [h, List.lookup_cons]
    · have hb : (k == k1) = false := by simp [hk]
      by_cases hp : (List.lookup k1 a).isNone = true <;>
        simp [hp, List.lookup_cons, hb, ih]

/-- Helper: filtering the per-call map down to keys absent from the
default map removes every entry for a key present in the defaults. -/
theorem lookup_filter_present (a b : List (String × Option String)) (k : String)
    (h : (List.lookup k a).isSome) :
    List.lookup k (b.filter (fun kv => (List.lookup kv.1 a).isNone)) =
      Option.none := by
  induction b with
  | nil => rfl
  | cons kv bs ih =>
    obtain ⟨k1, v1⟩ := kv
    rw [List.filter_cons]
    by_cases hk : k = k1
    · subst hk
      have hnn : (List.lookup k a).isNone = false := by
        cases hl : List.lookup k a
        · rw [hl] at h; cases h
        · rfl
      simp [hnn, ih]
    · have hb : (k == k1) = false := by simp [hk]
      by_cases hp : (List.lookup k1 a).isNone = true <;>
        simp [hp, List.lookup_cons, hb, ih]

/-- Helper: a lookup in the `underscore.extend({}, a, b)` merge yields
`b`'s value when `b` has the key, else `a`'s. -/
theorem extendMap_lookup (a b : List (String × Option String)) (k : String) :
    List.lookup k (extendMap a b) =
      (List.lookup k b).or (List.lookup k a) := by
  rw [extendMap, List.lookup_append, lookup_map_override]
  cases ha : List.lookup k a with
  | some v =>
    rw [lookup_filter_present a b k (by simp [ha])]
    cases hb : List.lookup k b <;> simp
  | none =>
    rw [lookup_filter_absent a b k ha]
    cases hb : List.lookup k b <;> simp

/-- C5: the expected headers checked in the assertion phase are exactly
the `underscore.extend` merge of the config's default expectations with
the per-call expectations (per-call values override defaults, looked up
key by key); every defined entry `(k, v)` of the merge yields a check
that compares `v` against the response header found under the LOWERCASED
key (case-insensitive matching, since Node lowercases incoming header
names); and when the response header is missing, every check for that
key fails rather than being skipped. -/
theorem c5_expected_headers (cfg : HttpClientCfg) (res : ExpSpec)
    (resp : ProcessedResponse) (k : String) (v : String)
    (hmem : (k, some v) ∈ extendMap cfg.headers (res.headers.getD [])) :
    (⟨.header k, List.lookup (lowerStr k) resp.headers == some v⟩ : CheckCall) ∈
      headerChecks cfg res resp ∧
    (∀ k2, List.lookup k2 (extendMap cfg.headers (res.headers.getD [])) =
      (List.lookup k2 (res.headers.getD [])).or (List.lookup k2 cfg.headers)) ∧
    (List.lookup (lowerStr k) resp.headers = Option.none →
      ∀ c ∈ headerChecks cfg res resp, c.kind = .header k → c.passed = false) ∧
    (∀ c ∈ headerChecks cfg res resp, ∃ k2 v2,
      (k2, some v2) ∈ extendMap cfg.headers (res.headers.getD []) ∧
      c = ⟨.header k2, List.lookup (lowerStr k2) resp.headers == some v2⟩) := by
  refine ⟨?_, ?_, ?_, ?_⟩
  · exact List.mem_filterMap.mpr ⟨(k, some v), hmem, rfl⟩
  · intro k2
    exact extendMap_lookup cfg.headers (res.headers.getD []) k2
  · intro h c hc hk
    obtain ⟨⟨k2, ov⟩, hm2, hf⟩ := List.mem_filterMap.mp hc
    cases ov with
    | none => cases hf
    | some v2 =>
      obtain rfl : (⟨.header k2,
          List.lookup (lowerStr k2) resp.headers == some v2⟩ : CheckCall) = c :=
        Option.some.inj hf
      obtain rfl : k2 = k := by
        cases hk
        rfl
      simp [h]
  · intro c hc
    obtain ⟨⟨k2, ov⟩, hm2, hf⟩ := List.mem_filterMap.mp hc
    cases ov with
    | none => cases hf
    | some v2 => exact ⟨k2, v2, hm2, (Option.some.inj hf).symm⟩

/-- Witness for C5: a default expected header `X-Powered-By: Express`
with no per-call expectations and a response that lacks the header: the
check is present among the header checks and fails. -/
theorem c5_expected_headers_witness :
    (⟨.header "X-Powered-By", false⟩ : CheckCall) ∈
      headerChecks ⟨"", [("X-Powered-By", some "Express")], Option.none⟩ {}
        (processEnd ⟨200, [], ""⟩) := by
  have h := c5_expected_headers
    ⟨"", [("X-Powered-By", some "Express")], Option.none⟩ {}
    (processEnd ⟨200, [], ""⟩) "X-Powered-By" "Express" (by decide)
  exact h.1

/-- C10: when the supplied assertion handle has no `done` method and no
callback is given, an all-pass assertion run reaches the success tail and
performs NO terminal action at all (the end listener simply returns),
while a failing assertion's error is thrown. -/
theorem c10_no_done_no_callback (cfg : HttpClientCfg) (res : ExpSpec)
    (raw : RawResponse) :
    endHandler (some ⟨false⟩) false cfg res raw =
      (match assertPhase cfg res (processEnd raw) with
       | Option.none => []
       | some k => [.thrown (.assertionErr k)]) := by
  rw [endHandler]
  cases h : assertPhase cfg res (processEnd raw) <;> simp [h, successTail]

/-- C1 counterexample: with no callback and no assertion handle, a
successful response fires ZERO terminal actions (the success tail at
lines 249-254 falls through without invoking anything), contradicting
the claim's "never zero". -/
theorem c1_zero_actions_counterexample :
    endHandler Option.none false {} {} ⟨200, [], "ok"⟩ = [] := rfl

/-- C1 amended: per delivered transport event AT MOST one terminal
action fires, and never more than one; the error event always fires
exactly one; the end event fires exactly one iff a callback was supplied
or an assertion handle was supplied that either has a `done` method or
whose assertion phase fails (otherwise zero fire); the timeout event
fires exactly one iff a callback was supplied (otherwise zero fire). -/
theorem c1_terminal_action_count (assert : Option AssertH) (hasCb : Bool)
    (cfg : HttpClientCfg) (res : ExpSpec) :
    (∀ ev, (dispatchEvent assert hasCb cfg res ev).length ≤ 1) ∧
    (∀ e, (dispatchEvent assert hasCb cfg res (.errEvt e)).length = 1) ∧
    (∀ raw, (dispatchEvent assert hasCb cfg res (.endEvt raw)).length = 1 ↔
      (hasCb = true ∨ ∃ a, assert = some a ∧
        (a.hasDone = true ∨
          assertPhase cfg res (processEnd raw) ≠ Option.none))) ∧
    (∀ ms, (dispatchEvent assert hasCb cfg res (.timeoutEvt ms)).length = 1 ↔
      hasCb = true) := by
  refine ⟨?_, ?_, ?_, ?_⟩
  · intro ev
    cases ev with
    | endEvt raw =>
      simp only [dispatchEvent, endHandler]
      cases assert with
      | none => cases hasCb <;> simp [successTail]
      | some a =>
        cases h : assertPhase cfg res (processEnd raw) with
        | none => cases hasCb <;> cases ha : a.hasDone <;> simp [successTail, ha]
        | some k => cases hasCb <;> cases ha : a.hasDone <;> simp [ha]
    | errEvt e =>
      simp only [dispatchEvent, errorHandler]
      cases assert with
      | none => cases hasCb <;> simp
      | some a => cases hasCb <;> cases ha : a.hasDone <;> simp [ha]
    | timeoutEvt ms => cases hasCb <;> simp [dispatchEvent, timeoutHandler]
  · intro e
    simp only [dispatchEvent, errorHandler]
    cases assert with
    | none => cases hasCb <;> simp
    | some a => cases hasCb <;> cases ha : a.hasDone <;> simp [ha]
  · intro raw
    simp only [dispatchEvent, endHandler]
    cases assert with
    | none => cases hasCb <;> simp [successTail]
    | some a =>
      cases h : assertPhase cfg res (processEnd raw) with
      | none => cases hasCb <;> cases ha : a.hasDone <;>
          simp [successTail, ha, h]
      | some k => cases hasCb <;> cases ha : a.hasDone <;> simp [ha, h]
  · intro ms
    cases hasCb <;> simp [dispatchEvent, timeoutHandler]

/-- Witness for C1 (amended): a timeout event with a callback fires
exactly one terminal action. -/
theorem c1_terminal_action_count_witness :
    (dispatchEvent Option.none true {} {} (.timeoutEvt 50)).length = 1 :=
  ((c1_terminal_action_count Option.none true {} {}).2.2.2 50).mpr rfl

/-- C3 counterexample: the timeout listener (lines 132-141) ignores the
assertion handle entirely — with no callback, even when a done-capable
assertion handle exists, the TIMEOUT error is delivered nowhere: it is
neither passed to `assert.done` nor thrown. -/
theorem c3_timeout_dropped_counterexample :
    (timeoutHandler false 50).1 = [] ∧
    (timeoutHandler false 50).1 ≠ [TermAct.doneErr (.timeoutErr 50)] ∧
    (timeoutHandler false 50).1 ≠ [TermAct.thrown (.timeoutErr 50)] := by
  refine ⟨rfl, ?_, ?_⟩ <;> intro h <;> exact List.noConfusion h

/-- C3 amended: every error delivered through the error listener follows
the priority `cb(null, error)` → `assert.done(error)` → `throw`; the
timeout listener always aborts the in-flight request and produces an
error distinguishable by `code = 'TIMEOUT'`, but delivers it only when a
callback was supplied — with no callback it performs no delivery. -/
theorem c3_transport_error_delivery (assert : Option AssertH) (hasCb : Bool)
    (e : JsErr) (ms : Nat) :
    errorHandler assert hasCb e =
      [if hasCb then TermAct.cbErr Option.none e
       else if assertHasDone assert then TermAct.doneErr e
       else TermAct.thrown e] ∧
    (timeoutHandler hasCb ms).2 = true ∧
    JsErr.code (.timeoutErr ms) = some "TIMEOUT" ∧
    (timeoutHandler hasCb ms).1 =
      (if hasCb then [TermAct.cbErr Option.none (.timeoutErr ms)] else []) := by
  refine ⟨?_, rfl, rfl, rfl⟩
  cases assert with
  | none => cases hasCb <;> simp [errorHandler, assertHasDone]
  | some a =>
    cases hasCb <;> cases ha : a.hasDone <;>
      simp [errorHandler, assertHasDone, ha]

/-- Witness for C3 (amended): a connection-refused error with no
callback and a done-capable handle goes to `assert.done(error)`. -/
theorem c3_transport_error_delivery_witness :
    errorHandler (some ⟨true⟩) false (.transportErr "ECONNREFUSED") =
      [TermAct.doneErr (.transportErr "ECONNREFUSED")] :=
  ((c3_transport_error_delivery (some ⟨true⟩) false
    (.transportErr "ECONNREFUSED") 0).1).trans rfl

end NodeunitHttpClient
